import Mathlib

/-!
Verification of the FinWell intent-classification and response-formatting
pipeline.  The definitions below are shallow embeddings of the Python
sources:

* `src/crypto/token-sentiment-tracker-main (1)/token-sentiment-tracker-main/agent.py`
  (token extraction, sentiment aggregation, numeric formatting, chat handler)
* `src/advisor/advisor_agent.py` (domain routing)
* `src/health/insurance_info.py` (insurance extraction, sentiment, formatter)
* `src/health/insurance_agent.py` (serious-condition detection)

Python floats are modelled as exact rationals, machine strings as Lean
`String`/`List Char` (ASCII is what all lookup tables and claims use).
-/

set_option maxRecDepth 40000

/-- ASCII lower-casing of one character, as Python `str.lower` acts on the
    ASCII range (all table entries and claim inputs are ASCII). -/
def asciiLower (c : Char) : Char := c.toLower

/-- Embedding of Python `str.lower()` (ASCII range). -/
def pyLower (s : String) : String := String.mk (s.data.map asciiLower)

/-- Word character in the sense of the regex `\b` boundary: `[A-Za-z0-9_]`. -/
def isWordChar (c : Char) : Bool := c.isAlphanum || c = '_'

/-- Containment of `needle` as a contiguous character substring of `hay`,
    the embedding of Python's `needle in hay` on strings. -/
def substrList (needle : List Char) : List Char → Bool
  | [] => needle.isEmpty
  | c :: cs => needle.isPrefixOf (c :: cs) || substrList needle cs

/-- String-level substring containment (Python `in`). -/
def pyContains (hay needle : String) : Bool := substrList needle.data hay.data

/-- One step of the `\btok\b` regex search: the pattern matches at the head
    of `rest` when the previous character was not a word character
    (`prevOk`), `tok` is a prefix, and the following character (if any) is
    not a word character. -/
def wbMatchesAt (tok rest : List Char) (prevOk : Bool) : Bool :=
  prevOk && tok.isPrefixOf rest &&
    (match rest.drop tok.length with
     | [] => true
     | c :: _ => !isWordChar c)

/-- Scanning search for `\btok\b` (the first strategy of
    `extract_token_from_query`); `prevOk` records whether the character just
    before `rest` was absent or a non-word character. -/
def wbSearchAux (tok : List Char) (prevOk : Bool) : List Char → Bool
  | [] => wbMatchesAt tok [] prevOk
  | c :: cs => wbMatchesAt tok (c :: cs) prevOk || wbSearchAux tok (!isWordChar c) cs

/-- Embedding of `re.search(fr'\b{re.escape(token)}\b', query)` for a purely
    alphanumeric token. -/
def wbSearch (tok : String) (text : String) : Bool :=
  wbSearchAux tok.data true text.data

/-- Table `TOKEN_ID_MAP` from the crypto agent, in source insertion order. -/
def TOKEN_ID_MAP : List (String × String) :=
  [("btc", "bitcoin"), ("eth", "ethereum"), ("sol", "solana"),
   ("link", "chainlink"), ("dot", "polkadot"), ("ada", "cardano"),
   ("avax", "avalanche-2"), ("matic", "matic-network"), ("doge", "dogecoin"),
   ("shib", "shiba-inu"), ("xrp", "ripple"), ("bnb", "binancecoin"),
   ("uni", "uniswap"), ("atom", "cosmos")]

/-- Strategy (a) of `extract_token_from_query`: first symbol of
    `TOKEN_ID_MAP` with a word-boundary occurrence in the query. -/
def tokenSymbolSearch (ql : String) : Option String :=
  (TOKEN_ID_MAP.map Prod.fst).find? (fun tok => wbSearch tok ql)

/-- Strategy (b) of `extract_token_from_query`: first full token name
    contained in the query (the source applies `.lower()` to the query once
    more, a no-op on the already lower-cased text, kept here for fidelity). -/
def tokenNameSearch (ql : String) : Option String :=
  (TOKEN_ID_MAP.find? (fun p => pyContains (pyLower ql) p.2)).map Prod.fst

/-- Fuel-driven scan for the non-overlapping matches of
    `re.findall(r'\b[A-Za-z]{3,5}\b', query)`, left to right; a match is a
    maximal alphabetic run of length 3 to 5 delimited on both sides by a
    non-word character or the text edge.  `prevOk` records the boundary
    state before the current position; fuel `l.length` always suffices
    because every step consumes at least one character. -/
def findTokensAux : Nat → Bool → List Char → List (List Char)
  | 0, _, _ => []
  | _ + 1, _, [] => []
  | fuel + 1, prevOk, c :: cs =>
    if prevOk && c.isAlpha then
      if 3 ≤ (c :: cs.takeWhile Char.isAlpha).length &&
          (c :: cs.takeWhile Char.isAlpha).length ≤ 5 &&
          (match cs.dropWhile Char.isAlpha with
           | [] => true
           | d :: _ => !isWordChar d) then
        (c :: cs.takeWhile Char.isAlpha) ::
          findTokensAux fuel false (cs.dropWhile Char.isAlpha)
      else
        findTokensAux fuel (!isWordChar c) cs
    else
      findTokensAux fuel (!isWordChar c) cs

/-- The match list of `re.findall(r'\b[A-Za-z]{3,5}\b', query)`. -/
def findTokens (prevOk : Bool) (l : List Char) : List (List Char) :=
  findTokensAux l.length prevOk l

/-- Strategy (c) of `extract_token_from_query`: first generic 3-5 letter
    word-boundary token whose lower-cased form is a key of `TOKEN_ID_MAP`. -/
def tokenGenericSearch (ql : String) : Option String :=
  (findTokens true ql.data).findSome? (fun m =>
    let ml := String.mk (m.map asciiLower)
    if (TOKEN_ID_MAP.find? (fun p => p.1 = ml)).isSome then some ml else none)

/-- Embedding of `extract_token_from_query` (crypto agent, lines 132-156):
    lower-case the query, then try the three strategies in order. -/
def extract_token_from_query (q : String) : Option String :=
  match tokenSymbolSearch (pyLower q) with
  | some tok => some tok
  | none =>
    match tokenNameSearch (pyLower q) with
    | some tok => some tok
    | none => tokenGenericSearch (pyLower q)

/-- The first two strategies of `extract_token_from_query` alone, the
    comparison point for the refinement claim that the third strategy is
    redundant. -/
def extractTokenFirstTwoStrategies (q : String) : Option String :=
  match tokenSymbolSearch (pyLower q) with
  | some tok => some tok
  | none => tokenNameSearch (pyLower q)

/-- Domain labels produced by the advisor router. -/
inductive Domain where
  | stock
  | crypto
  | health
  | unknown
deriving DecidableEq

/-- Stock keywords of `route_message` in `advisor_agent.py`. -/
def STOCK_KEYWORDS : List String := ["stock", "share", "market"]

/-- Crypto keywords of `route_message`. -/
def CRYPTO_KEYWORDS : List String := ["crypto", "bitcoin", "solana"]

/-- Health keywords of `route_message`. -/
def HEALTH_KEYWORDS : List String := ["health", "symptom", "insurance"]

/-- Embedding of the domain decision of `route_message`
    (`advisor_agent.py`, lines 14-30): lower-case the content and test the
    three keyword sets in fixed order, first match winning. -/
def route_message (content : String) : Domain :=
  let c := pyLower content
  if STOCK_KEYWORDS.any (fun k => pyContains c k) then Domain.stock
  else if CRYPTO_KEYWORDS.any (fun k => pyContains c k) then Domain.crypto
  else if HEALTH_KEYWORDS.any (fun k => pyContains c k) then Domain.health
  else Domain.unknown

/-- The apostrophe character, kept out of string literals. -/
def apoChar : Char := Char.ofNat 39

/-- The C5 end-to-end input "what's the balance of bitcoin". -/
def c5Input : String :=
  "what" ++ String.mk [apoChar] ++ "s the balance of bitcoin"

/-- Sentiment bucketing shared by `analyze_sentiment` (crypto agent, lines
    482-495) and `analyze_insurance_sentiment` (`insurance_info.py`, lines
    273-286); both sites use these literal thresholds and category names.
    The Python literals `0.15` and `0.05` denote the exact rationals
    `mkRat 15 100` and `mkRat 5 100` in this model. -/
def categorizeSentiment (s : ℚ) : String :=
  if s ≥ mkRat 15 100 then "very positive"
  else if s ≥ mkRat 5 100 then "positive"
  else if s ≤ -mkRat 15 100 then "very negative"
  else if s ≤ -mkRat 5 100 then "negative"
  else "neutral"

/-- One gathered sample: the raw value (`none` models a non-text value) and
    the label of the source it came from. -/
structure MetricSample where
  raw : Option String
  source_label : String
deriving DecidableEq

/-- The aggregate sentiment record built by `analyze_sentiment`
    (`sentiment_score`, `sentiment_category`, `sample_size`, `sources`). -/
structure AggregateResult where
  score : ℚ
  category : String
  sample_size : Nat
  sources : List String
deriving DecidableEq

/-- Embedding of Python `str.strip()`: drop whitespace from both ends. -/
def pyStrip (s : String) : String :=
  String.mk
    (((s.data.dropWhile Char.isWhitespace).reverse.dropWhile
        Char.isWhitespace).reverse)

/-- The per-text validity test of the scoring loop
    (`if text and isinstance(text, str) and len(text.strip()) > 0`). -/
def scoreableText : Option String → Bool
  | none => false
  | some s => (!s.data.isEmpty) && !(pyStrip s).data.isEmpty

/-- First-seen deduplication of source labels, the embedding of the
    repeated `if source_name not in sources: sources.append(source_name)`
    pattern of `analyze_sentiment`. -/
def firstSeen (acc : List String) : List String → List String
  | [] => acc
  | l :: ls => if l ∈ acc then firstSeen acc ls else firstSeen (acc ++ [l]) ls

/-- The successfully scored values of the scoring loop of
    `analyze_sentiment`: every valid text contributes `scoreFn` of it. -/
def sampleScores (scoreFn : String → ℚ) (samples : List MetricSample) :
    List ℚ :=
  (samples.map MetricSample.raw).filterMap
    (fun t => if scoreableText t then t.map scoreFn else none)

/-- Embedding of the aggregation core of `analyze_sentiment` (crypto agent,
    lines 459-518) over an explicit sample sequence and scoring function:
    empty text list gives the `"No data"` record; otherwise the valid texts
    are scored, and with no valid score the default record (empty `sources`)
    is returned unchanged, else the mean, its category, the count, and the
    first five deduplicated sources. -/
def aggregate (scoreFn : String → ℚ) (samples : List MetricSample) :
    AggregateResult :=
  if (samples.map MetricSample.raw).isEmpty then
    ⟨0, "neutral", 0, ["No data"]⟩
  else if (sampleScores scoreFn samples).isEmpty then
    ⟨0, "neutral", 0, []⟩
  else
    ⟨(sampleScores scoreFn samples).sum /
        ((sampleScores scoreFn samples).length : ℚ),
     categorizeSentiment ((sampleScores scoreFn samples).sum /
        ((sampleScores scoreFn samples).length : ℚ)),
     (sampleScores scoreFn samples).length,
     (firstSeen [] (samples.map MetricSample.source_label)).take 5⟩

/-- Exact division of a rational by a positive natural number, the model of
    the Python float divisions `value / 1_000_000_000` and friends. -/
def qdivNat (v : ℚ) (d : ℕ) : ℚ := mkRat v.num (v.den * d)

/-- Fixed-point decimal rendering of a rational with `prec` fraction
    digits, rounding half to even: the model of Python `f'{v:.2f}'`-style
    formatting on our exact-rational reading of floats. -/
def formatFixed (v : ℚ) (prec : Nat) : String :=
  let den : ℤ := (v.den : ℤ)
  let scaled : ℤ := v.num * (10 : ℤ) ^ prec
  let q := scaled.ediv den
  let r := scaled.emod den
  let n : ℤ :=
    if 2 * r < den then q
    else if den < 2 * r then q + 1
    else if q % 2 = 0 then q else q + 1
  let m := n.natAbs
  let ip := m / 10 ^ prec
  let fp := m % 10 ^ prec
  let fpStr := Nat.repr fp
  let pad := String.mk (List.replicate (prec - fpStr.length) '0')
  (if v < 0 then "-" else "") ++ Nat.repr ip ++
    (if prec = 0 then "" else "." ++ pad ++ fpStr)

/-- Embedding of `format_currency` (crypto agent, lines 661-668):
    B/M/K abbreviation at the `1e9`/`1e6`/`1e3` thresholds, two decimals
    (one for K), plain two-decimal dollars below `1e3`. -/
def format_currency (value : ℚ) : String :=
  if value ≥ 1000000000 then "$" ++ formatFixed (qdivNat value 1000000000) 2 ++ "B"
  else if value ≥ 1000000 then "$" ++ formatFixed (qdivNat value 1000000) 2 ++ "M"
  else if value ≥ 1000 then "$" ++ formatFixed (qdivNat value 1000) 1 ++ "K"
  else "$" ++ formatFixed value 2

/-- Embedding of `format_percent` (crypto agent, lines 670-671): two
    decimals with a `+` prefix exactly for positive values. -/
def format_percent (value : ℚ) : String :=
  if value > 0 then "+" ++ formatFixed value 2 ++ "%"
  else formatFixed value 2 ++ "%"

/-- Chunks of three characters from a digit list (least significant first),
    used for Python comma grouping of integers. -/
def chunks3 : List Char → List (List Char)
  | [] => []
  | [c] => [[c]]
  | [c, d] => [[c, d]]
  | c :: d :: e :: rest => [c, d, e] :: chunks3 rest

/-- Embedding of Python `f'{n:,}'` on integers: digits grouped in threes
    with commas. -/
def commaGroup (n : ℤ) : String :=
  let ds := (Nat.repr n.natAbs).data
  let grouped := ((chunks3 ds.reverse).map List.reverse).reverse
  (if n < 0 then "-" else "") ++ String.mk (List.intercalate [','] grouped)

/-- Decimal digits to a natural number. -/
def digitsToNat (l : List Char) : ℕ :=
  l.foldl (fun a c => a * 10 + (c.toNat - 48)) 0

/-- Embedding of Python `float(s)` on the simple decimal strings produced
    by the market-data provider: optional sign, digits, optional fraction. -/
def parseDecimal (s : String) : ℚ :=
  let l := s.data
  let sgn : ℤ := match l with | '-' :: _ => -1 | _ => 1
  let l := match l with
    | '-' :: rest => rest
    | '+' :: rest => rest
    | _ => l
  let ipart := l.takeWhile Char.isDigit
  let rest := l.dropWhile Char.isDigit
  let fpart := match rest with
    | '.' :: r => r.takeWhile Char.isDigit
    | _ => []
  mkRat (sgn * ((digitsToNat ipart : ℤ) * 10 ^ fpart.length + digitsToNat fpart))
    (10 ^ fpart.length)

/-- Embedding of Python `str.title()`: an alphabetic character is
    upper-cased after a non-alphabetic character and lower-cased after an
    alphabetic one. -/
def pyTitleAux (prevAlpha : Bool) : List Char → List Char
  | [] => []
  | c :: cs =>
    if c.isAlpha then
      (if prevAlpha then c.toLower else c.toUpper) :: pyTitleAux true cs
    else c :: pyTitleAux false cs

/-- String-level Python `str.title()`. -/
def pyTitle (s : String) : String := String.mk (pyTitleAux false s.data)

/-- Fuel-driven splitting on whitespace runs, the embedding of Python
    `str.split()` with no arguments; fuel `l.length` always suffices. -/
def wordsAux : Nat → List Char → List (List Char)
  | 0, _ => []
  | _ + 1, [] => []
  | fuel + 1, c :: cs =>
    if c.isWhitespace then wordsAux fuel cs
    else
      (c :: cs.takeWhile (fun d => !d.isWhitespace)) ::
        wordsAux fuel (cs.dropWhile (fun d => !d.isWhitespace))

/-- String-level Python `str.split()`. -/
def pySplit (s : String) : List String :=
  (wordsAux s.data.length s.data).map String.mk

/-- One entry of `MAJOR_INSURANCE_COMPANIES` (`insurance_info.py`). -/
structure CompanyData where
  name : String
  type : String
  website : String
deriving DecidableEq

/-- Table `MAJOR_INSURANCE_COMPANIES` in source insertion order. -/
def MAJOR_INSURANCE_COMPANIES : List (String × CompanyData) :=
  [("aetna", ⟨"Aetna", "health", "aetna.com"⟩),
   ("anthem", ⟨"Anthem", "health", "anthem.com"⟩),
   ("cigna", ⟨"Cigna", "health", "cigna.com"⟩),
   ("humana", ⟨"Humana", "health", "humana.com"⟩),
   ("kaiser", ⟨"Kaiser Permanente", "health", "kp.org"⟩),
   ("united", ⟨"UnitedHealthcare", "health", "uhc.com"⟩),
   ("bcbs", ⟨"Blue Cross Blue Shield", "health", "bcbs.com"⟩),
   ("metlife", ⟨"MetLife", "life", "metlife.com"⟩),
   ("prudential", ⟨"Prudential", "life", "prudential.com"⟩),
   ("newyorklife", ⟨"New York Life", "life", "newyorklife.com"⟩),
   ("northwestern", ⟨"Northwestern Mutual", "life", "northwesternmutual.com"⟩),
   ("massmutual", ⟨"MassMutual", "life", "massmutual.com"⟩),
   ("lincoln", ⟨"Lincoln Financial", "life", "lfg.com"⟩),
   ("transamerica", ⟨"Transamerica", "life", "transamerica.com"⟩),
   ("aflac", ⟨"Aflac", "supplemental", "aflac.com"⟩)]

/-- Keyword table `INSURANCE_TYPES` (`insurance_info.py`, lines 90-97). -/
def INSURANCE_TYPES : List (String × List String) :=
  [("health", ["medical", "health", "healthcare", "hmo", "ppo", "epo"]),
   ("life", ["life", "term", "whole", "universal", "variable"]),
   ("disability", ["disability", "income", "di"]),
   ("long_term_care", ["ltc", "long term care", "nursing"]),
   ("dental", ["dental", "orthodontic"]),
   ("vision", ["vision", "eye", "optical"])]

/-- The fixed `insurance_terms` list of
    `extract_insurance_info_from_query`. -/
def INSURANCE_TERMS : List String :=
  ["premium", "deductible", "copay", "coinsurance", "out-of-pocket",
   "network", "coverage", "benefits", "claim", "policy", "renewal",
   "exclusion", "rider", "beneficiary", "death benefit", "cash value"]

/-- The classification record built by
    `extract_insurance_info_from_query`. -/
structure QueryInfo where
  company : Option String
  insurance_type : Option String
  company_data : Option CompanyData
  specific_terms : List String
deriving DecidableEq

/-- Embedding of `extract_insurance_info_from_query`
    (`insurance_info.py`, lines 147-187): first company whose key, full
    lower-cased name, or any name word is contained in the lower-cased
    query; first insurance type with a contained keyword; all contained
    insurance terms in list order. -/
def extract_insurance_info_from_query (q : String) : QueryInfo :=
  let ql := pyLower q
  let companyHit := MAJOR_INSURANCE_COMPANIES.find? (fun p =>
    pyContains ql p.1 || pyContains ql (pyLower p.2.name) ||
      (pySplit (pyLower p.2.name)).any (fun w => pyContains ql w))
  let typeHit := INSURANCE_TYPES.find? (fun p =>
    p.2.any (fun k => pyContains ql k))
  { company := companyHit.map Prod.fst
    insurance_type := typeHit.map Prod.fst
    company_data := companyHit.map Prod.snd
    specific_terms := INSURANCE_TERMS.filter (fun t => pyContains ql t) }

/-- Market-data record consumed by `format_insurance_response`; `none` at
    the call site models the absent or error-carrying dictionary. -/
structure MarketData where
  symbol : String
  price : ℚ
  change : ℚ
  change_percent : String
  volume : ℤ
  high : ℚ
  low : ℚ
  last_updated : String
deriving DecidableEq

/-- Sentiment record consumed by `format_insurance_response` (the fields
    `sentiment_score`, `sentiment_category`, `sample_size` it reads). -/
structure SentimentData where
  sentiment_score : ℚ
  sentiment_category : String
  sample_size : ℕ
  sources : List String
deriving DecidableEq

/-- Embedding of `format_insurance_response` (`insurance_info.py`, lines
    452-501).  The wall-clock read `datetime.now().strftime('%B %d, %Y at
    %H:%M:%S')` is made explicit as the `nowStr` argument: the Python body
    interpolates that freshly formatted timestamp into the footer on every
    invocation. -/
def format_insurance_response (query_info : QueryInfo)
    (market_data : Option MarketData) (sentiment_data : SentimentData)
    (analysis : String) (nowStr : String) : String :=
  let header :=
    match query_info.company_data with
    | some cd => "**" ++ cd.name ++ " - " ++ pyTitle cd.type ++ " Insurance Analysis**"
    | none =>
      match query_info.insurance_type with
      | some it => "**" ++ pyTitle it ++ " Insurance Market Analysis**"
      | none => "**Insurance Market Analysis**"
  let response := header ++ "\n\n"
  let response := response ++
    (match market_data with
     | some md =>
       let change_emoji :=
         if parseDecimal (md.change_percent.replace "%" "") > 0 then "ðŸŸ¢" else "ðŸ”´"
       "ðŸ“ˆ **Stock Performance** (" ++ md.symbol ++ ")\n" ++
         "â€¢ Current Price: $" ++ formatFixed md.price 2 ++ "\n" ++
         "â€¢ Daily Change: " ++ change_emoji ++ " " ++ md.change_percent ++ "%\n" ++
         "â€¢ Volume: " ++ commaGroup md.volume ++ "\n" ++
         "â€¢ Day Range: $" ++ formatFixed md.low 2 ++ " - $" ++
         formatFixed md.high 2 ++ "\n\n"
     | none => "")
  let sscore := sentiment_data.sentiment_score
  let sentiment_emoji :=
    if sscore > mkRat 1 10 then "ðŸ‘"
    else if sscore < -mkRat 1 10 then "ðŸ‘Ž" else "âž–"
  let response := response ++ "ðŸŽ¯ **Market Sentiment**\n" ++
    "â€¢ Score: " ++ formatFixed sscore 2 ++ "/1.0\n" ++
    "â€¢ Category: " ++ sentiment_emoji ++ " " ++
    pyTitle sentiment_data.sentiment_category ++ "\n" ++
    "â€¢ Sample Size: " ++ Nat.repr sentiment_data.sample_size ++ " sources\n\n"
  let response := response ++
    (if query_info.specific_terms.isEmpty then ""
     else "ðŸ” **Areas of Focus:** " ++
       String.intercalate ", " query_info.specific_terms ++ "\n\n")
  let response := response ++ "ðŸ“Š **Detailed Analysis**\n" ++ analysis ++ "\n\n"
  let response := response ++ "---\n" ++
    "ðŸ“… **Analysis Generated:** " ++ nowStr ++ "\n"
  let response := response ++
    (match query_info.company_data with
     | some cd => "ðŸŒ **Learn More:** Visit " ++ cd.website
     | none => "")
  pyStrip response

/-- The `serious_keywords` list of `receive_analysis`
    (`insurance_agent.py`, lines 50-53). -/
def SERIOUS_KEYWORDS : List String :=
  ["chest pain", "emergency", "critical", "shortness of breath",
   "life-threatening", "serious", "this condition may be serious"]

/-- The serious-condition test of `receive_analysis`:
    `any(keyword in msg.response.lower() for keyword in serious_keywords)`. -/
def seriousConditionDetected (resp : String) : Bool :=
  SERIOUS_KEYWORDS.any (fun k => pyContains (pyLower resp) k)

/-- The insurance prompt sent when a serious condition is detected. -/
def insurancePromptText : String :=
  "Do you have health insurance? If not, please enter your monthly income."

/-- Embedding of the decision of `receive_analysis`
    (`insurance_agent.py`, lines 45-57): the prompt message is produced
    exactly when the serious-keyword test fires. -/
def receive_analysis (resp : String) : Option String :=
  if seriousConditionDetected resp then some insurancePromptText else none

/-- The fixed clarification sent by the crypto `handle_chat_message` when
    no token is extracted (crypto agent, line 895). -/
def cryptoNoTokenMessage : String :=
  "I couldn" ++ String.mk [apoChar] ++
    "t identify a cryptocurrency in your message. Please specify a cryptocurrency like BTC, ETH, or LINK."

/-- Embedding of the response choice of the crypto `handle_chat_message`
    (crypto agent, lines 893-914): without an extracted token the fixed
    clarification is returned and the outlook pipeline (`get_token_outlook`,
    abstracted as `outlook`) is not consulted. -/
def handle_chat_message_crypto (outlook : String → String)
    (user_message : String) : String :=
  match extract_token_from_query user_message with
  | none => cryptoNoTokenMessage
  | some tok => outlook tok

/-- The fixed clarification sent by the insurance `handle_chat_message`
    when neither a company nor an insurance type is identified
    (`insurance_info.py`, lines 526-531). -/
def insuranceNoMatchMessage : String :=
  "I specialize in analyzing health and life insurance. Please ask about:\n\nðŸ¥ **Health Insurance:** Aetna, Anthem, Cigna, Humana, Kaiser Permanente, UnitedHealthcare, BCBS\nðŸ’° **Life Insurance:** MetLife, Prudential, New York Life, Northwestern Mutual, MassMutual\n\nYou can ask about premiums, coverage, benefits, or market analysis for these companies."

/-- Embedding of the response choice of the insurance `handle_chat_message`
    (`insurance_info.py`, lines 524-543): with no company and no insurance
    type the fixed clarification is returned and the analysis pipeline
    (`get_insurance_analysis`, abstracted as `analysisF`) is not consulted. -/
def handle_chat_message_insurance (analysisF : QueryInfo → String)
    (user_message : String) : String :=
  let qi := extract_insurance_info_from_query user_message
  if qi.company = none ∧ qi.insurance_type = none then insuranceNoMatchMessage
  else analysisF qi

theorem char_toNat_ofNat_valid (n : Nat) (h : n.isValidChar) :
    (Char.ofNat n).toNat = n := by
  rw [Char.ofNat, dif_pos h]
  simp [Char.ofNatAux, Char.toNat, UInt32.ofNat', UInt32.toNat, BitVec.toNat_ofNatLt]

theorem asciiLower_idem (c : Char) : asciiLower (asciiLower c) = asciiLower c := by
  unfold asciiLower Char.toLower
  by_cases h : c.toNat ≥ 65 ∧ c.toNat ≤ 90
  · rw [if_pos h]
    have hv : (c.toNat + 32).isValidChar := Or.inl (by omega)
    have ht : (Char.ofNat (c.toNat + 32)).toNat = c.toNat + 32 :=
      char_toNat_ofNat_valid _ hv
    rw [if_neg (by rw [ht]; omega)]
  · rw [if_neg h, if_neg h]

/-- C1: the five fixed sentiment bands of the aggregator are exactly as the
    specification lists them: `score ≥ 0.15` is very positive, `[0.05,
    0.15)` positive, `(-0.05, 0.05)` neutral, `(-0.15, -0.05]` negative and
    `score ≤ -0.15` very negative (thresholds as exact rationals). -/
theorem c1_sentiment_bucketing (s : ℚ) :
    (s ≥ mkRat 15 100 → categorizeSentiment s = "very positive") ∧
    (mkRat 5 100 ≤ s → s < mkRat 15 100 → categorizeSentiment s = "positive") ∧
    (-mkRat 5 100 < s → s < mkRat 5 100 → categorizeSentiment s = "neutral") ∧
    (-mkRat 15 100 < s → s ≤ -mkRat 5 100 → categorizeSentiment s = "negative") ∧
    (s ≤ -mkRat 15 100 → categorizeSentiment s = "very negative") := by
  have e1 : (mkRat 15 100 : ℚ) = 15 / 100 := by norm_num [Rat.mkRat_eq_div]
  have e2 : (mkRat 5 100 : ℚ) = 5 / 100 := by norm_num [Rat.mkRat_eq_div]
  unfold categorizeSentiment
  rw [e1, e2]
  refine ⟨fun h1 => ?_, fun h1 h2 => ?_, fun h1 h2 => ?_, fun h1 h2 => ?_,
    fun h1 => ?_⟩ <;>
    split_ifs <;> first | rfl | linarith

/-- Witness for C1 at the four boundary scores named by the claim. -/
theorem c1_sentiment_bucketing_witness :
    categorizeSentiment (mkRat 15 100) = "very positive" ∧
    categorizeSentiment (mkRat 1499999 10000000) = "positive" ∧
    categorizeSentiment (-mkRat 15 100) = "very negative" ∧
    categorizeSentiment 0 = "neutral" :=
  ⟨(c1_sentiment_bucketing _).1 (by decide),
   (c1_sentiment_bucketing _).2.1 (by decide) (by decide),
   (c1_sentiment_bucketing _).2.2.2.2 (by decide),
   (c1_sentiment_bucketing _).2.2.1 (by decide) (by decide)⟩

/-- C4: any text whose lower-cased form contains a crypto keyword and no
    stock and no health keyword routes to the crypto domain, and a text
    matching no domain keyword set routes to unknown (first matching domain
    in the fixed stock, crypto, health order wins). -/
theorem c4_route_first_match (t : String) :
    (CRYPTO_KEYWORDS.any (fun k => pyContains (pyLower t) k) = true →
     STOCK_KEYWORDS.any (fun k => pyContains (pyLower t) k) = false →
     HEALTH_KEYWORDS.any (fun k => pyContains (pyLower t) k) = false →
     route_message t = Domain.crypto) ∧
    (STOCK_KEYWORDS.any (fun k => pyContains (pyLower t) k) = false →
     CRYPTO_KEYWORDS.any (fun k => pyContains (pyLower t) k) = false →
     HEALTH_KEYWORDS.any (fun k => pyContains (pyLower t) k) = false →
     route_message t = Domain.unknown) := by
  constructor <;> intro h1 h2 h3 <;> simp [route_message, h1, h2, h3]

/-- Witness for C4: a crypto-only text routes to crypto, an unmatched text
    to unknown. -/
theorem c4_route_first_match_witness :
    route_message "tell me about bitcoin" = Domain.crypto ∧
    route_message "weather" = Domain.unknown :=
  ⟨(c4_route_first_match "tell me about bitcoin").1 (by decide) (by decide)
      (by decide),
   (c4_route_first_match "weather").2 (by decide) (by decide) (by decide)⟩

/-- C5: on the input "what's the balance of bitcoin" the router yields the
    crypto domain and extraction yields `btc`: the word-boundary symbol
    strategy finds nothing and the full-name strategy matches "bitcoin". -/
theorem c5_bitcoin_end_to_end :
    route_message c5Input = Domain.crypto ∧
    extract_token_from_query c5Input = some "btc" ∧
    tokenSymbolSearch (pyLower c5Input) = none ∧
    tokenNameSearch (pyLower c5Input) = some "btc" := by
  decide

/-- C6: the fixed formatting examples hold, K/M/B abbreviation happens at
    the `1e3`/`1e6`/`1e9` thresholds, and percentages are `+`-prefixed
    exactly for positive values. -/
theorem c6_numeric_formatting (v : ℚ) :
    format_currency 1500000000 = "$1.50B" ∧
    format_currency 999 = "$999.00" ∧
    format_percent (-mkRat 3333 1000) = "-3.33%" ∧
    (v ≥ 1000000000 → format_currency v =
      "$" ++ formatFixed (qdivNat v 1000000000) 2 ++ "B") ∧
    (v ≥ 1000000 → v < 1000000000 → format_currency v =
      "$" ++ formatFixed (qdivNat v 1000000) 2 ++ "M") ∧
    (v ≥ 1000 → v < 1000000 → format_currency v =
      "$" ++ formatFixed (qdivNat v 1000) 1 ++ "K") ∧
    (v < 1000 → format_currency v = "$" ++ formatFixed v 2) ∧
    (0 < v → (format_percent v).data.head? = some '+') ∧
    (v < 0 → (format_percent v).data.head? = some '-') ∧
    (v = 0 → format_percent v = "0.00%") := by
  refine ⟨by decide, by decide, by decide, fun h1 => ?_, fun h1 h2 => ?_,
    fun h1 h2 => ?_, fun h1 => ?_, fun h1 => ?_, fun h1 => ?_, fun h1 => ?_⟩
  · simp [format_currency, h1]
  · simp [format_currency, h1, not_le.mpr h2]
  · have h3 : ¬ v ≥ (1000000000 : ℚ) := not_le.mpr (by linarith)
    simp [format_currency, h1, not_le.mpr h2, h3]
  · have h2 : ¬ v ≥ 1000 := not_le.mpr h1
    have h3 : ¬ v ≥ 1000000 := not_le.mpr (by linarith)
    have h4 : ¬ v ≥ 1000000000 := not_le.mpr (by linarith)
    simp [format_currency, h2, h3, h4]
  · simp [format_percent, h1]
  · have h2 : ¬ v > 0 := not_lt.mpr h1.le
    simp [format_percent, formatFixed, h1, h2]
  · subst h1; decide

/-- Witness for C6: the K band at 2500 (one decimal in the source) and the
    sign prefixes at 7, -7. -/
theorem c6_numeric_formatting_witness :
    format_currency 2500 = "$2.5K" ∧
    (format_percent 7).data.head? = some '+' ∧
    (format_percent (-7)).data.head? = some '-' :=
  ⟨((c6_numeric_formatting 2500).2.2.2.2.2.1 (by decide) (by decide)).trans
      (by decide),
   (c6_numeric_formatting 7).2.2.2.2.2.2.2.1 (by decide),
   (c6_numeric_formatting (-7)).2.2.2.2.2.2.2.2.1 (by decide)⟩

/-- C8: the insurance prompt of `receive_analysis` is produced exactly when
    the lower-cased response contains one of the seven fixed serious
    keywords; in particular any response containing "chest pain" triggers
    it. -/
theorem c8_serious_keyword_trigger (resp : String) :
    ((receive_analysis resp).isSome = true ↔
      ∃ k ∈ SERIOUS_KEYWORDS, pyContains (pyLower resp) k = true) ∧
    (pyContains (pyLower resp) "chest pain" = true →
      receive_analysis resp = some insurancePromptText) := by
  constructor
  · have hiff : (receive_analysis resp).isSome = seriousConditionDetected resp := by
      unfold receive_analysis
      by_cases h : seriousConditionDetected resp <;> simp [h]
    rw [hiff]
    simp [seriousConditionDetected, List.any_eq_true]
  · intro h
    have hs : seriousConditionDetected resp = true := by
      unfold seriousConditionDetected
      rw [List.any_eq_true]
      exact ⟨"chest pain", by decide, h⟩
    simp [receive_analysis, hs]

/-- Witness for C8 on the response "I have chest pain". -/
theorem c8_serious_keyword_trigger_witness :
    receive_analysis "I have chest pain" = some insurancePromptText :=
  (c8_serious_keyword_trigger "I have chest pain").2 (by decide)

/-- C9: when no entity is extracted, both chat handlers return their fixed
    clarification message (no facts or metric sections) and the response
    does not depend on the data-fetching/analysis pipeline, which is
    therefore never consulted. -/
theorem c9_no_entity_clarification (msg : String) :
    (extract_token_from_query msg = none →
      ∀ outlook other : String → String,
        handle_chat_message_crypto outlook msg = cryptoNoTokenMessage ∧
        handle_chat_message_crypto outlook msg =
          handle_chat_message_crypto other msg) ∧
    ((extract_insurance_info_from_query msg).company = none →
     (extract_insurance_info_from_query msg).insurance_type = none →
      ∀ analysisF other : QueryInfo → String,
        handle_chat_message_insurance analysisF msg = insuranceNoMatchMessage ∧
        handle_chat_message_insurance analysisF msg =
          handle_chat_message_insurance other msg) := by
  constructor
  · intro h outlook other
    constructor <;> simp [handle_chat_message_crypto, h]
  · intro h1 h2 analysisF other
    constructor <;> simp [handle_chat_message_insurance, h1, h2]

/-- Witness for C9 on the entity-free input "hello there". -/
theorem c9_no_entity_clarification_witness :
    handle_chat_message_crypto (fun _ => "fetched outlook") "hello there" =
      cryptoNoTokenMessage ∧
    handle_chat_message_insurance (fun _ => "fetched analysis") "hello there" =
      insuranceNoMatchMessage :=
  ⟨((c9_no_entity_clarification "hello there").1 (by decide)
      (fun _ => "fetched outlook") (fun _ => "other")).1,
   ((c9_no_entity_clarification "hello there").2 (by decide) (by decide)
      (fun _ => "fetched analysis") (fun _ => "other")).1⟩

/-- C2 counterexample: a nonempty sample sequence in which nothing scores
    (one empty text, one non-text value) does not produce the canonical
    record with `sources = ["No data"]`; the code returns the default record
    with an empty `sources` list instead. -/
theorem c2_counterexample :
    aggregate (fun _ => 0) [⟨some "", "News"⟩, ⟨none, "News"⟩] ≠
      (⟨0, "neutral", 0, ["No data"]⟩ : AggregateResult) := by
  decide

/-- C2 amended: with zero successfully scored samples the aggregator
    returns score 0, category neutral and sample size 0, but
    `sources = ["No data"]` only for the empty input sequence; a nonempty
    all-unparseable sequence yields `sources = []`. -/
theorem c2_zero_valid_samples (scoreFn : String → ℚ)
    (samples : List MetricSample)
    (hall : ∀ s ∈ samples, scoreableText s.raw = false) :
    aggregate scoreFn samples =
      if samples.isEmpty then ⟨0, "neutral", 0, ["No data"]⟩
      else ⟨0, "neutral", 0, []⟩ := by
  cases samples with
  | nil => simp [aggregate]
  | cons a as =>
    have hscores : sampleScores scoreFn (a :: as) = [] := by
      rw [sampleScores, List.filterMap_eq_nil_iff]
      intro t ht
      rcases List.mem_map.mp ht with ⟨s, hs, rfl⟩
      simp [hall s hs]
    have e1 : ((a :: as).map MetricSample.raw).isEmpty = false := rfl
    unfold aggregate
    rw [e1, hscores]
    simp

/-- Witness for C2 (amended) at a one-sample non-text sequence and at the
    empty sequence. -/
theorem c2_zero_valid_samples_witness :
    aggregate (fun _ => 0) [⟨none, "A"⟩] = ⟨0, "neutral", 0, []⟩ ∧
    aggregate (fun _ => 0) [] = ⟨0, "neutral", 0, ["No data"]⟩ :=
  ⟨by simpa using c2_zero_valid_samples (fun _ => 0) [⟨none, "A"⟩] (by decide),
   by simpa using c2_zero_valid_samples (fun _ => 0) [] (by decide)⟩

theorem mem_firstSeen (acc l : List String) (x : String) :
    x ∈ firstSeen acc l ↔ x ∈ acc ∨ x ∈ l := by
  induction l generalizing acc with
  | nil => simp [firstSeen]
  | cons a as ih =>
    by_cases h : a ∈ acc
    · rw [firstSeen, if_pos h, ih]
      constructor
      · rintro (hx | hx)
        · exact Or.inl hx
        · exact Or.inr (List.mem_cons_of_mem _ hx)
      · rintro (hx | hx)
        · exact Or.inl hx
        · rcases List.mem_cons.mp hx with rfl | hx
          · exact Or.inl h
          · exact Or.inr hx
    · rw [firstSeen, if_neg h, ih]
      simp only [List.mem_append, List.mem_singleton, List.mem_cons]
      tauto

theorem nodup_firstSeen (acc l : List String) (h : acc.Nodup) :
    (firstSeen acc l).Nodup := by
  induction l generalizing acc with
  | nil => simpa [firstSeen]
  | cons a as ih =>
    by_cases ha : a ∈ acc
    · rw [firstSeen, if_pos ha]
      exact ih acc h
    · rw [firstSeen, if_neg ha]
      exact ih _ (by simp [List.nodup_append, h, ha])

theorem length_firstSeen_eq (l1 l2 : List String)
    (hmem : ∀ x, x ∈ l1 ↔ x ∈ l2) :
    (firstSeen [] l1).length = (firstSeen [] l2).length := by
  have h1 : (firstSeen [] l1).Nodup := nodup_firstSeen _ _ (by simp)
  have h2 : (firstSeen [] l2).Nodup := nodup_firstSeen _ _ (by simp)
  exact ((List.perm_ext_iff_of_nodup h1 h2).mpr (fun a => by
    simp [mem_firstSeen, hmem a])).length_eq

/-- C3 counterexample: a permutation of six samples with six distinct
    source labels changes the membership of the emitted `sources` list
    (capped at five), so the "same set of source labels" part of the claim
    fails. -/
theorem c3_counterexample :
    List.Perm
      [(⟨some "x", "A"⟩ : MetricSample), ⟨some "x", "B"⟩, ⟨some "x", "C"⟩,
       ⟨some "x", "D"⟩, ⟨some "x", "E"⟩, ⟨some "x", "F"⟩]
      [⟨some "x", "F"⟩, ⟨some "x", "A"⟩, ⟨some "x", "B"⟩, ⟨some "x", "C"⟩,
       ⟨some "x", "D"⟩, ⟨some "x", "E"⟩] ∧
    "F" ∈ (aggregate (fun _ => 1)
      [⟨some "x", "F"⟩, ⟨some "x", "A"⟩, ⟨some "x", "B"⟩, ⟨some "x", "C"⟩,
       ⟨some "x", "D"⟩, ⟨some "x", "E"⟩]).sources ∧
    "F" ∉ (aggregate (fun _ => 1)
      [⟨some "x", "A"⟩, ⟨some "x", "B"⟩, ⟨some "x", "C"⟩, ⟨some "x", "D"⟩,
       ⟨some "x", "E"⟩, ⟨some "x", "F"⟩]).sources := by
  exact ⟨by decide, by decide, by decide⟩

/-- C3 amended: aggregation of a permuted sample sequence yields the same
    score and the same sample size; the emitted `sources` lists have the
    same members whenever the input has at most five distinct source labels
    (the cap of five makes larger label sets order-dependent). -/
theorem c3_perm_invariance (scoreFn : String → ℚ) (s1 s2 : List MetricSample)
    (hp : s1.Perm s2) :
    (aggregate scoreFn s1).score = (aggregate scoreFn s2).score ∧
    (aggregate scoreFn s1).sample_size = (aggregate scoreFn s2).sample_size ∧
    ((firstSeen [] (s1.map MetricSample.source_label)).length ≤ 5 →
      ∀ x, x ∈ (aggregate scoreFn s1).sources ↔
        x ∈ (aggregate scoreFn s2).sources) := by
  have hsp : (sampleScores scoreFn s1).Perm (sampleScores scoreFn s2) :=
    (hp.map MetricSample.raw).filterMap _
  have hlbl : ∀ x, x ∈ s1.map MetricSample.source_label ↔
      x ∈ s2.map MetricSample.source_label :=
    fun x => (hp.map MetricSample.source_label).mem_iff
  rcases eq_or_ne s1 [] with h1 | h1
  · subst h1
    have h2 : s2 = [] := hp.symm.eq_nil
    subst h2
    exact ⟨rfl, rfl, fun _ _ => Iff.rfl⟩
  · have h2 : s2 ≠ [] := fun h => h1 ((h ▸ hp).eq_nil)
    unfold aggregate
    have e1 : (s1.map MetricSample.raw).isEmpty = false := by
      simpa [List.isEmpty_iff] using h1
    have e2 : (s2.map MetricSample.raw).isEmpty = false := by
      simpa [List.isEmpty_iff] using h2
    rw [e1, e2]
    simp only [Bool.false_eq_true, if_false]
    rcases eq_or_ne (sampleScores scoreFn s1) [] with hs1 | hs1
    · have hs2 : sampleScores scoreFn s2 = [] := (hs1 ▸ hsp).symm.eq_nil
      rw [hs1, hs2]
      exact ⟨rfl, rfl, fun _ _ => Iff.rfl⟩
    · have hs2 : sampleScores scoreFn s2 ≠ [] :=
        fun h => hs1 ((h ▸ hsp).eq_nil)
      have f1 : (sampleScores scoreFn s1).isEmpty = false := by
        simpa [List.isEmpty_iff] using hs1
      have f2 : (sampleScores scoreFn s2).isEmpty = false := by
        simpa [List.isEmpty_iff] using hs2
      rw [f1, f2]
      simp only [Bool.false_eq_true, if_false]
      refine ⟨?_, ?_, ?_⟩
      · simp only [hsp.sum_eq, hsp.length_eq]
      · simpa using hsp.length_eq
      · intro hle x
        have hlen2 : (firstSeen [] (s2.map MetricSample.source_label)).length =
            (firstSeen [] (s1.map MetricSample.source_label)).length :=
          length_firstSeen_eq _ _ (fun y => (hlbl y).symm)
        have t1 : (firstSeen [] (s1.map MetricSample.source_label)).take 5 =
            firstSeen [] (s1.map MetricSample.source_label) :=
          List.take_of_length_le hle
        have t2 : (firstSeen [] (s2.map MetricSample.source_label)).take 5 =
            firstSeen [] (s2.map MetricSample.source_label) :=
          List.take_of_length_le (hlen2 ▸ hle)
        simp only [t1, t2, mem_firstSeen, hlbl x]

/-- Witness for C3 (amended) on a two-sample swap. -/
theorem c3_perm_invariance_witness :
    (aggregate (fun _ => 1) [⟨some "x", "A"⟩, ⟨some "x", "B"⟩]).score =
      (aggregate (fun _ => 1) [⟨some "x", "B"⟩, ⟨some "x", "A"⟩]).score ∧
    (aggregate (fun _ => 1) [⟨some "x", "A"⟩, ⟨some "x", "B"⟩]).sample_size =
      (aggregate (fun _ => 1) [⟨some "x", "B"⟩, ⟨some "x", "A"⟩]).sample_size ∧
    ("A" ∈ (aggregate (fun _ => 1) [⟨some "x", "A"⟩, ⟨some "x", "B"⟩]).sources ↔
      "A" ∈ (aggregate (fun _ => 1) [⟨some "x", "B"⟩, ⟨some "x", "A"⟩]).sources) :=
  ⟨(c3_perm_invariance (fun _ => 1) _ _ (by decide)).1,
   (c3_perm_invariance (fun _ => 1) _ _ (by decide)).2.1,
   (c3_perm_invariance (fun _ => 1) _ _ (by decide)).2.2 (by decide) "A"⟩

/-- C7 counterexample: the insurance formatter embeds the wall-clock
    timestamp, so two invocations on identical classification, aggregate
    and facts inputs but at different times produce different strings. -/
theorem c7_counterexample :
    format_insurance_response ⟨none, none, none, []⟩ none ⟨0, "neutral", 0, []⟩
        "analysis" "October 12, 2025 at 10:00:00" ≠
      format_insurance_response ⟨none, none, none, []⟩ none
        ⟨0, "neutral", 0, []⟩ "analysis" "October 12, 2025 at 10:00:01" := by
  decide

/-- C7 amended: the formatter is a pure function of its explicit inputs
    together with the wall-clock reading it embeds in the "Analysis
    Generated" footer; two invocations agree whenever the inputs and the
    clock reading agree. -/
theorem c7_formatter_deterministic (query_info : QueryInfo)
    (market_data : Option MarketData) (sentiment_data : SentimentData)
    (analysis now1 now2 : String) (h : now1 = now2) :
    format_insurance_response query_info market_data sentiment_data analysis
        now1 =
      format_insurance_response query_info market_data sentiment_data analysis
        now2 := by
  rw [h]

/-- Witness for C7 (amended) at concrete inputs and a fixed clock string. -/
theorem c7_formatter_deterministic_witness :
    format_insurance_response ⟨none, none, none, []⟩ none ⟨0, "neutral", 0, []⟩
        "analysis" "October 12, 2025 at 10:00:00" =
      format_insurance_response ⟨none, none, none, []⟩ none
        ⟨0, "neutral", 0, []⟩ "analysis" "October 12, 2025 at 10:00:00" :=
  c7_formatter_deterministic ⟨none, none, none, []⟩ none ⟨0, "neutral", 0, []⟩
    "analysis" "October 12, 2025 at 10:00:00" "October 12, 2025 at 10:00:00"
    rfl

theorem wbSearchAux_of_match (tok l : List Char) (prevOk : Bool)
    (h : wbMatchesAt tok l prevOk = true) : wbSearchAux tok prevOk l = true := by
  cases l with
  | nil => simpa [wbSearchAux] using h
  | cons c cs => simp [wbSearchAux, h]

theorem wbSearchAux_of_split (tok post : List Char) :
    ∀ (pre : List Char) (prevOk : Bool),
    (pre = [] → prevOk = true) →
    (∀ c, pre.getLast? = some c → isWordChar c = false) →
    (∀ c, post.head? = some c → isWordChar c = false) →
    wbSearchAux tok prevOk (pre ++ tok ++ post) = true := by
  intro pre
  induction pre with
  | nil =>
    intro prevOk hpre _ hpost
    apply wbSearchAux_of_match
    have h2 : tok.isPrefixOf (tok ++ post) = true :=
      List.isPrefixOf_iff_prefix.mpr (List.prefix_append tok post)
    rw [List.nil_append]
    unfold wbMatchesAt
    rw [hpre rfl, h2, List.drop_left]
    cases post with
    | nil => rfl
    | cons d ds => simpa using hpost d rfl
  | cons p ps ih =>
    intro prevOk _ hlast hpost
    have hih : wbSearchAux tok (!isWordChar p) (ps ++ tok ++ post) = true := by
      apply ih
      · intro hps
        subst hps
        simpa using hlast p (by simp)
      · intro c hc
        apply hlast c
        cases ps with
        | nil => simp at hc
        | cons x xs => rw [List.getLast?_cons_cons]; exact hc
      · exact hpost
    have hsplit : (p :: ps) ++ tok ++ post = p :: (ps ++ tok ++ post) := by
      simp
    rw [hsplit, wbSearchAux, hih]
    simp

theorem findTokensAux_spec (fuel : Nat) :
    ∀ (prevOk : Bool) (l m : List Char), m ∈ findTokensAux fuel prevOk l →
    ∃ pre post, l = pre ++ m ++ post ∧
      (pre = [] → prevOk = true) ∧
      (∀ c, pre.getLast? = some c → isWordChar c = false) ∧
      (∀ c, post.head? = some c → isWordChar c = false) := by
  induction fuel with
  | zero => intro prevOk l m hm; simp [findTokensAux] at hm
  | succ fuel ih =>
    intro prevOk l m hm
    cases l with
    | nil => simp [findTokensAux] at hm
    | cons c cs =>
      rw [findTokensAux] at hm
      by_cases hb : (prevOk && c.isAlpha) = true
      · rw [if_pos hb] at hm
        by_cases hg : (3 ≤ (c :: cs.takeWhile Char.isAlpha).length &&
            (c :: cs.takeWhile Char.isAlpha).length ≤ 5 &&
            (match cs.dropWhile Char.isAlpha with
             | [] => true
             | d :: _ => !isWordChar d)) = true
        · rw [if_pos hg] at hm
          rcases List.mem_cons.mp hm with rfl | hm2
          · refine ⟨[], cs.dropWhile Char.isAlpha, ?_, ?_, ?_, ?_⟩
            · simp [List.takeWhile_append_dropWhile]
            · intro _
              have hb2 := hb
              simp only [Bool.and_eq_true] at hb2
              exact hb2.1
            · intro x hx
              simp at hx
            · intro x hx
              have hg2 := hg
              simp only [Bool.and_eq_true] at hg2
              have hcase := hg2.2
              cases hdw : cs.dropWhile Char.isAlpha with
              | nil => rw [hdw] at hx; simp at hx
              | cons d ds =>
                rw [hdw] at hx hcase
                simp at hx hcase
                rw [← hx]
                exact hcase
          · rcases ih false (cs.dropWhile Char.isAlpha) m hm2 with
              ⟨pre', post', heq, hpre', hlast', hpost'⟩
            have hne : pre' ≠ [] := fun h => by simpa using hpre' h
            refine ⟨(c :: cs.takeWhile Char.isAlpha) ++ pre', post', ?_, ?_, ?_,
              hpost'⟩
            · have : c :: cs =
                  (c :: cs.takeWhile Char.isAlpha) ++ cs.dropWhile Char.isAlpha := by
                simp [List.takeWhile_append_dropWhile]
              rw [this, heq]
              simp
            · intro h
              simp at h
            · intro x hx
              apply hlast' x
              rwa [List.getLast?_append_of_ne_nil _ hne] at hx
        · rw [if_neg hg] at hm
          rcases ih (!isWordChar c) cs m hm with
            ⟨pre', post', heq, hpre', hlast', hpost'⟩
          refine ⟨c :: pre', post', ?_, ?_, ?_, hpost'⟩
          · rw [heq]; simp
          · intro h; simp at h
          · intro x hx
            cases pre' with
            | nil =>
              simp at hx
              subst hx
              simpa using hpre' rfl
            | cons p ps =>
              rw [List.getLast?_cons_cons] at hx
              exact hlast' x hx
      · rw [if_neg hb] at hm
        rcases ih (!isWordChar c) cs m hm with
          ⟨pre', post', heq, hpre', hlast', hpost'⟩
        refine ⟨c :: pre', post', ?_, ?_, ?_, hpost'⟩
        · rw [heq]; simp
        · intro h; simp at h
        · intro x hx
          cases pre' with
          | nil =>
            simp at hx
            subst hx
            simpa using hpre' rfl
          | cons p ps =>
            rw [List.getLast?_cons_cons] at hx
            exact hlast' x hx

/-- C10: the third, generic 3-5-letter strategy of
    `extract_token_from_query` never determines the result: the function
    agrees everywhere with the variant running only the first two
    strategies, because any boundary-delimited token that is a known symbol
    is already found by the first strategy's word-boundary search. -/
theorem c10_generic_strategy_redundant (q : String) :
    extract_token_from_query q = extractTokenFirstTwoStrategies q := by
  unfold extract_token_from_query extractTokenFirstTwoStrategies
  cases hA : tokenSymbolSearch (pyLower q) with
  | some tok => rfl
  | none =>
    cases hB : tokenNameSearch (pyLower q) with
    | some tok => rfl
    | none =>
      show tokenGenericSearch (pyLower q) = none
      unfold tokenGenericSearch
      rw [List.findSome?_eq_none_iff]
      intro m hm
      by_cases hk :
          (TOKEN_ID_MAP.find?
            (fun p => p.1 = String.mk (m.map asciiLower))).isSome = true
      · exfalso
        rcases Option.isSome_iff_exists.mp hk with ⟨p, hp⟩
        have hfp := List.find?_some hp
        have hpml : p.1 = String.mk (m.map asciiLower) := by simpa using hfp
        have hmem : p ∈ TOKEN_ID_MAP := List.mem_of_find?_eq_some hp
        rcases findTokensAux_spec _ _ _ m hm with
          ⟨pre, post, heq, -, hlast, hpost⟩
        have hml : m.map asciiLower = m := by
          have himg : ∀ c ∈ m, asciiLower c = c := by
            intro c hc
            have hcm : c ∈ (pyLower q).data := by
              rw [heq]
              simp [hc]
            rcases List.mem_map.mp hcm with ⟨d, -, rfl⟩
            exact asciiLower_idem d
          calc m.map asciiLower = m.map id := List.map_congr_left himg
            _ = m := List.map_id m
        have hsearch : wbSearch p.1 (pyLower q) = true := by
          unfold wbSearch
          rw [hpml, hml]
          show wbSearchAux m true (pyLower q).data = true
          rw [heq]
          exact wbSearchAux_of_split m post pre true (fun _ => rfl) hlast hpost
        have hkey : p.1 ∈ TOKEN_ID_MAP.map Prod.fst :=
          List.mem_map_of_mem Prod.fst hmem
        have := List.find?_eq_none.mp hA p.1 hkey
        exact this hsearch
      · simp only [Bool.not_eq_true] at hk
        simp [hk]
